import Mathlib

/-
Shallow embedding of the eventbus Go package (eventbus.go, latest revision).
Machine integers (uint64 event ids) are modelled as Nat with explicit
reduction modulo 2 ^ 64 where Go arithmetic overflows.  The wall clock
(time.Now) is passed explicitly as a Nat parameter; the Go zero time is 0.
Payloads (Go interface values holding JSON-representable data) are modelled
by an explicit JSON value type.
-/

/-- JSON values, modelling the JSON-representable payloads and the wire
format used by Dump and Load.  Numbers are modelled as integers. -/
inductive Json where
  | null : Json
  | bool (b : Bool) : Json
  | num (n : Int) : Json
  | str (s : String) : Json
  | arr (xs : List Json) : Json
  | obj (fields : List (String × Json)) : Json

/-- Event mirrors the Go struct: ID, Timestamp, Topic, Type, Payload.
The timestamp is a Nat tick count; 0 is the Go zero time. -/
structure Event where
  id : String
  timestamp : Nat
  topic : String
  type : String
  payload : Json

/-- Decimal digit character, used by the model of strconv.FormatUint. -/
def digitChar (d : Nat) : Char := Char.ofNat (d + 48)

/-- Numeric value of a decimal digit character, used by the model of
strconv.ParseUint. -/
def charVal (c : Char) : Nat := c.toNat - 48

/-- Little-endian decimal digits of n, with explicit structural fuel
(any fuel at least n yields the digits of n). -/
def litDigits : Nat → Nat → List Nat
  | _, 0 => []
  | 0, _ + 1 => []
  | fuel + 1, n + 1 => ((n + 1) % 10) :: litDigits fuel ((n + 1) / 10)

/-- Model of strconv.FormatUint(n, 10): the decimal representation of n. -/
def formatUint (n : Nat) : String :=
  if n = 0 then "0" else String.mk (((litDigits n n).map digitChar).reverse)

/-- Accumulating decimal value of a big-endian digit-character list. -/
def parseVal (cs : List Char) : Nat := cs.foldl (fun a c => 10 * a + charVal c) 0

/-- Model of strconv.ParseUint(s, 10, 64): decimal digits only, nonempty,
value below 2 ^ 64; none models the Go error return. -/
def parseUint64 (s : String) : Option Nat :=
  if s.data = [] then none
  else if s.data.all Char.isDigit then
    if parseVal s.data < 2 ^ 64 then some (parseVal s.data) else none
  else none

/-- Numeric interpretation of an event id (0 when unparsable), used to state
ordering of ids. -/
def idNum (s : String) : Nat := (parseUint64 s).getD 0

/-- Value of a little-endian decimal digit list. -/
def ofDigitsLE : List Nat → Nat
  | [] => 0
  | d :: ds => d + 10 * ofDigitsLE ds

/-- AllTopics selects every topic when subscribing or in queries
(the Go constant "*"). -/
def AllTopics : String := "*"

/-- Query mirrors the Go struct: zero values disable the corresponding
filters.  The zero time is 0 and a nil PayloadFilter is none. -/
structure Query where
  topic : String
  type : String
  since : Nat
  untilT : Nat
  afterID : String
  payloadFilter : Option (Json → Bool)

/-- Subscriber mirrors the Go struct plus the observable state of its
delivery channel: cap is the channel capacity (make (chan Event) cap) and
queue the events currently buffered, oldest first. -/
structure Subscriber where
  topic : String
  cap : Nat
  queue : List Event

/-- Bus mirrors the Go struct: the append-only event log and the set of
registered subscribers (the Go map modelled as a list; per-subscriber
delivery is independent of map iteration order). -/
structure Bus where
  events : List Event
  subs : List Subscriber

/-- New creates a Bus with an empty event log and no subscribers. -/
def New : Bus := ⟨[], []⟩

/-- ErrPub enumerates the error returns of publish; panicked models the Go
panic raised by yieldID on an unparsable stored id. -/
inductive PubOutcome where
  | ok (id : String) (b : Bus)
  | errNoTopic (b : Bus)
  | errConflict (b : Bus)
  | panicked

/-- SubErr enumerates the error returns of SubscribeWithBufferSize. -/
inductive SubErr where
  | noTopic
  | invalidBuffer
deriving DecidableEq

/-- yieldID generates the id for the next event: "1" on an empty log,
otherwise ParseUint of the last event's id plus one (uint64 arithmetic,
hence modulo 2 ^ 64), formatted in decimal.  none models the Go panic on an
unparsable last id. -/
def Bus.yieldID (b : Bus) : Option String :=
  match b.events.getLast? with
  | none => some "1"
  | some e =>
    match parseUint64 e.id with
    | none => none
    | some v => some (formatUint ((v + 1) % 2 ^ 64))

/-- lookup searches the log for an event with the given id, scanning from
the end; the empty id is never found. -/
def Bus.lookup (b : Bus) (id : String) : Option Event :=
  if id = "" then none
  else b.events.reverse.find? (fun e => e.id = id)

/-- Per-event test of the filter loop body: one conjunct per continue
condition in the Go code.  since is the local lower time bound derived from
AfterID (0 when absent). -/
def matchesQ (q : Query) (since : Nat) (e : Event) : Bool :=
  (q.topic == "" || q.topic == AllTopics || e.topic == q.topic) &&
  (q.type == "" || e.type == q.type) &&
  (match q.payloadFilter with
   | none => true
   | some f => f e.payload) &&
  (q.since == 0 || decide (q.since < e.timestamp)) &&
  (q.untilT == 0 || decide (e.timestamp < q.untilT)) &&
  (since == 0 || decide (since < e.timestamp))

/-- filter selects the events matching q, in log order.  A non-empty
AfterID naming no event yields no results; otherwise AfterID contributes a
strict lower bound on timestamps, taken from the named event. -/
def Bus.filter (b : Bus) (q : Query) : List Event :=
  if q.afterID = "" then b.events.filter (matchesQ q 0)
  else
    match b.lookup q.afterID with
    | none => []
    | some e => b.events.filter (matchesQ q e.timestamp)

/-- ForEachEvent calls fn with each event that matches q; the model returns
the list of events fn is invoked on, in order. -/
def Bus.ForEachEvent (b : Bus) (q : Query) : List Event := b.filter q

/-- Non-blocking channel send (select with default): the event is appended
when the buffer has room and silently dropped otherwise.  With cap 0
(unbuffered channel) and no synchronously ready consumer, the send always
drops. -/
def trySend (s : Subscriber) (e : Event) : Subscriber :=
  if s.queue.length < s.cap then ⟨s.topic, s.cap, s.queue ++ [e]⟩ else s

/-- Fan-out loop of publish: every subscriber whose topic is AllTopics or
equals the event's topic gets a non-blocking send. -/
def deliver (subs : List Subscriber) (e : Event) : List Subscriber :=
  subs.map (fun s => if s.topic ≠ AllTopics ∧ s.topic ≠ e.topic then s else trySend s e)

/-- publish models the private Go publish: NoTopic on an empty topic;
when store is set, Conflict when the filtered log for (topic, lastID) is
non-empty, otherwise a fresh id is assigned (possibly panicking) and the
event appended; finally the event is fanned out to subscribers.  now is the
wall-clock value of time.Now. -/
def Bus.publish (b : Bus) (topic eventType : String) (payload : Json)
    (lastID : String) (store : Bool) (now : Nat) : PubOutcome :=
  if topic = "" then .errNoTopic b
  else if store = true ∧ 0 < (b.filter ⟨topic, "", 0, 0, lastID, none⟩).length then
    .errConflict b
  else if store = true then
    match b.yieldID with
    | none => .panicked
    | some id =>
      .ok id ⟨b.events ++ [⟨id, now, topic, eventType, payload⟩],
              deliver b.subs ⟨id, now, topic, eventType, payload⟩⟩
  else
    .ok "" ⟨b.events, deliver b.subs ⟨"", now, topic, eventType, payload⟩⟩

/-- Publish appends a new event for a topic if the topic has not advanced
beyond lastID. -/
def Bus.Publish (b : Bus) (topic eventType : String) (payload : Json)
    (lastID : String) (now : Nat) : PubOutcome :=
  b.publish topic eventType payload lastID true now

/-- PublishUnstored delivers an event to subscribers without appending it
to the log. -/
def Bus.PublishUnstored (b : Bus) (topic eventType : String) (payload : Json)
    (now : Nat) : PubOutcome :=
  b.publish topic eventType payload "" false now

/-- SubscribeWithBufferSize registers a new subscriber.  On success it
returns the updated bus (the new subscriber appended with an empty queue)
together with the history slice the spawned replay goroutine will deliver;
both the history computation and the registration happen in one critical
section. -/
def Bus.SubscribeWithBufferSize (b : Bus) (topic fromID : String)
    (bufferSize : Int) : Except SubErr (Bus × List Event) :=
  if topic = "" then .error .noTopic
  else if bufferSize < 0 then .error .invalidBuffer
  else
    .ok (⟨b.events, b.subs ++ [⟨topic, bufferSize.toNat, []⟩]⟩,
         b.filter ⟨topic, "", 0, 0, fromID, none⟩)

/-- Subscribe registers a new subscriber with the default buffer size
of 1024. -/
def Bus.Subscribe (b : Bus) (topic fromID : String) : Except SubErr (Bus × List Event) :=
  b.SubscribeWithBufferSize topic fromID 1024

/-- Replace the subscriber at position i. -/
def modifyAt : List Subscriber → Nat → (Subscriber → Subscriber) → List Subscriber
  | [], _, _ => []
  | s :: rest, 0, f => f s :: rest
  | s :: rest, n + 1, f => s :: modifyAt rest n f

/-- One iteration of the replay goroutine spawned by
SubscribeWithBufferSize: a non-blocking send of the next pending history
event to the subscriber at position i.  The goroutine runs outside the bus
lock, so these steps interleave arbitrarily with publishes. -/
def stepReplay (b : Bus) (i : Nat) (pending : List Event) : Bus × List Event :=
  match pending with
  | [] => (b, [])
  | e :: rest => (⟨b.events, modifyAt b.subs i (fun s => trySend s e)⟩, rest)

/-- Start returns the logical lower bound id of the bus (the empty
string). -/
def Bus.Start (_ : Bus) : String := ""

/-- End returns the id of the last event in the bus, or the empty string
when the log is empty. -/
def Bus.End (b : Bus) : String :=
  match b.events.getLast? with
  | none => ""
  | some e => e.id

/-- JSON encoding of an event, as produced by Dump (field names as in the
Go struct tags). -/
def encodeEvent (e : Event) : Json :=
  .obj [("id", .str e.id), ("timestamp", .num (Int.ofNat e.timestamp)),
        ("topic", .str e.topic), ("type", .str e.type), ("payload", e.payload)]

/-- Field access in a decoded JSON object. -/
def jLookup (fields : List (String × Json)) (k : String) : Option Json :=
  (fields.find? (fun p => p.1 = k)).map Prod.snd

/-- JSON decoding of one event, as performed by Load.  The id is accepted
as an arbitrary string: no parseability check happens at decode time. -/
def decodeEvent (j : Json) : Option Event :=
  match j with
  | .obj fields =>
    match jLookup fields "id", jLookup fields "timestamp", jLookup fields "topic",
        jLookup fields "type", jLookup fields "payload" with
    | some (.str id), some (.num (.ofNat ts)), some (.str topic),
        some (.str ty), some p => some ⟨id, ts, topic, ty, p⟩
    | _, _, _, _, _ => none
  | _ => none

/-- JSON decoding of the event array read by Load. -/
def decodeEvents (j : Json) : Option (List Event) :=
  match j with
  | .arr xs => xs.mapM decodeEvent
  | _ => none

/-- Dump writes a JSON snapshot of all events; it does not affect
subscribers. -/
def Bus.Dump (b : Bus) : Json := .arr (b.events.map encodeEvent)

/-- Load reads events as JSON and replaces the current log; none models
the decode-error return.  Subscribers are neither notified nor changed,
and nothing about the decoded ids is validated. -/
def Bus.Load (b : Bus) (j : Json) : Option Bus :=
  match decodeEvents j with
  | none => none
  | some evs => some ⟨evs, b.subs⟩


/-- Conflict condition actually enforced by publish for a non-empty topic:
with an empty lastID, any event on the topic conflicts; with a lastID
naming a logged event, any event on the topic whose timestamp is strictly
after that event's timestamp conflicts (every event on the topic when the
named event carries the zero time); a non-empty lastID naming no logged
event never conflicts. -/
def ConflictSpec (b : Bus) (t lastID : String) : Prop :=
  if lastID = "" then ∃ e ∈ b.events, t = AllTopics ∨ e.topic = t
  else
    match b.lookup lastID with
    | none => False
    | some e0 => ∃ e ∈ b.events, (t = AllTopics ∨ e.topic = t) ∧
        (e0.timestamp = 0 ∨ e0.timestamp < e.timestamp)

/-- Numeric position of the id sequence: 0 on an empty log, otherwise the
parsed last id (none when that id is unparsable). -/
def lastVal (b : Bus) : Option Nat :=
  match b.events.getLast? with
  | none => some 0
  | some e => parseUint64 e.id

/-- The id generator is healthy: the log is empty or its last id parses
(equivalently, lastVal is defined). -/
def IdsParse (b : Bus) : Prop := ∃ v, lastVal b = some v

/-- Topic filter of a subscriber, as tested by the fan-out loop of
publish. -/
def subMatches (subTopic : String) (e : Event) : Bool :=
  subTopic == AllTopics || e.topic == subTopic

/-- One Publish request: topic, event type, payload, lastID, and the value
time.Now returns during the call. -/
structure PubReq where
  topic : String
  type : String
  payload : Json
  lastID : String
  now : Nat

/-- Run a sequence of Publish calls, recording the returned ids; none when
some call does not return ok. -/
def runPublishes (b : Bus) : List PubReq → Option (List String × Bus)
  | [] => some ([], b)
  | r :: rs =>
    match b.Publish r.topic r.type r.payload r.lastID r.now with
    | .ok id b1 =>
      match runPublishes b1 rs with
      | some (ids, bf) => some (id :: ids, bf)
      | none => none
    | _ => none

/-- Fixture: a log holding two events on topic t with distinct ids but
equal timestamps (installable through Load). -/
def evA1 : Event := ⟨"1", 5, "t", "x", Json.null⟩

/-- Fixture: second event on topic t, same timestamp as evA1. -/
def evA2 : Event := ⟨"2", 5, "t", "x", Json.null⟩

/-- Fixture bus for the tied-timestamp scenario. -/
def busC1 : Bus := ⟨[evA1, evA2], []⟩

/-- Fixture: busC1 after the publish that the tied timestamps let through. -/
def busC1after : Bus := ⟨[evA1, evA2, ⟨"3", 6, "t", "y", Json.null⟩], []⟩

/-- Fixture: a loaded log whose last id is 2 ^ 64 - 2. -/
def evNearMax : Event := ⟨"18446744073709551614", 1, "a", "x", Json.null⟩

/-- Fixture bus holding evNearMax. -/
def busC2 : Bus := ⟨[evNearMax], []⟩

/-- Fixture: the bus after the two publishes that wrap the id counter. -/
def busC2b : Bus :=
  ⟨[evNearMax, ⟨"18446744073709551615", 2, "t", "y", Json.null⟩,
    ⟨"0", 3, "t", "y", Json.null⟩], []⟩

/-- Fixture: loaded event with id 5 (the maximum of its log). -/
def evFive : Event := ⟨"5", 1, "a", "x", Json.null⟩

/-- Fixture: loaded event with id 4, placed after evFive. -/
def evFour : Event := ⟨"4", 2, "a", "x", Json.null⟩

/-- Fixture bus whose last id (4) is not its maximum id (5). -/
def busC3 : Bus := ⟨[evFive, evFour], []⟩

/-- Fixture: an event whose stored id is unparsable. -/
def evBadId : Event := ⟨"abc", 1, "t", "x", Json.null⟩

/-- Fixture bus holding only evBadId. -/
def busBad : Bus := ⟨[evBadId], []⟩

/-- Fixture: a capacity-1 subscriber on topic t that never consumes. -/
def sub1 : Subscriber := ⟨"t", 1, []⟩

/-- Fixture bus with an empty log and the capacity-1 subscriber. -/
def busC7 : Bus := ⟨[], [sub1]⟩

/-- Fixture: five rapid publishes on topic t, each passing the id returned
by the previous one as lastID. -/
def reqs5 : List PubReq :=
  [⟨"t", "e", Json.null, "", 1⟩, ⟨"t", "e", Json.null, "1", 2⟩,
   ⟨"t", "e", Json.null, "2", 3⟩, ⟨"t", "e", Json.null, "3", 4⟩,
   ⟨"t", "e", Json.null, "4", 5⟩]

/-- Fixture: the bus reached from busC7 by reqs5; the subscriber holds
exactly the first event. -/
def busC7f : Bus :=
  ⟨[⟨"1", 1, "t", "e", Json.null⟩, ⟨"2", 2, "t", "e", Json.null⟩,
    ⟨"3", 3, "t", "e", Json.null⟩, ⟨"4", 4, "t", "e", Json.null⟩,
    ⟨"5", 5, "t", "e", Json.null⟩],
   [⟨"t", 1, [⟨"1", 1, "t", "e", Json.null⟩]⟩]⟩

/-- Fixture: the historical event present before the subscription. -/
def h1ev : Event := ⟨"1", 1, "t", "x", Json.null⟩

/-- Fixture bus holding h1ev and no subscribers yet. -/
def busC8 : Bus := ⟨[h1ev], []⟩

/-- Fixture: the live event published while replay is still pending. -/
def live2 : Event := ⟨"2", 9, "t", "y", Json.null⟩

/-- Fixture: busC8 after subscribing and publishing live2, replay pending. -/
def busC8b : Bus := ⟨[h1ev, live2], [⟨"t", 2, [live2]⟩]⟩

/-- Fixture: busC8b after the replay goroutine delivers h1ev. -/
def busC8c : Bus := ⟨[h1ev, live2], [⟨"t", 2, [live2, h1ev]⟩]⟩

-- THEOREMS-MARKER

theorem litDigits_lt_ten : ∀ fuel n, n ≤ fuel → ∀ d ∈ litDigits fuel n, d < 10 := by
  intro fuel
  induction fuel with
  | zero =>
    intro n hn d hd
    interval_cases n
    simp [litDigits] at hd
  | succ fuel ih =>
    intro n hn d hd
    match n with
    | 0 => simp [litDigits] at hd
    | n + 1 =>
      simp only [litDigits, List.mem_cons] at hd
      rcases hd with h | h
      · omega
      · have hdiv : (n + 1) / 10 ≤ fuel := by
          have := Nat.div_lt_self (Nat.succ_pos n) (by norm_num : 1 < 10)
          omega
        exact ih ((n + 1) / 10) hdiv d h

theorem ofDigitsLE_litDigits : ∀ fuel n, n ≤ fuel → ofDigitsLE (litDigits fuel n) = n := by
  intro fuel
  induction fuel with
  | zero =>
    intro n hn
    interval_cases n
    rfl
  | succ fuel ih =>
    intro n hn
    match n with
    | 0 => rfl
    | n + 1 =>
      have hdiv : (n + 1) / 10 ≤ fuel := by
        have := Nat.div_lt_self (Nat.succ_pos n) (by norm_num : 1 < 10)
        omega
      simp only [litDigits, ofDigitsLE, ih ((n + 1) / 10) hdiv]
      exact Nat.mod_add_div (n + 1) 10

theorem litDigits_ne_nil (n : Nat) (h : 0 < n) : litDigits n n ≠ [] := by
  match n, h with
  | n + 1, _ => simp [litDigits]

theorem foldl_digits_reverse (L : List Nat) :
    ∀ a, L.reverse.foldl (fun a d => 10 * a + d) a = a * 10 ^ L.length + ofDigitsLE L := by
  induction L with
  | nil => intro a; simp [ofDigitsLE]
  | cons d ds ih =>
    intro a
    simp only [List.reverse_cons, List.foldl_append, List.foldl_cons, List.foldl_nil,
      ih a, ofDigitsLE, List.length_cons]
    ring

theorem charVal_digitChar (d : Nat) (h : d < 10) : charVal (digitChar d) = d := by
  interval_cases d <;> decide

theorem isDigit_digitChar (d : Nat) (h : d < 10) : (digitChar d).isDigit = true := by
  interval_cases d <;> decide

theorem foldl_map_digitChar (L : List Nat) (hL : ∀ d ∈ L, d < 10) :
    ∀ a, (L.map digitChar).foldl (fun a c => 10 * a + charVal c) a =
      L.foldl (fun a d => 10 * a + d) a := by
  induction L with
  | nil => intro a; rfl
  | cons d ds ih =>
    intro a
    have hd : d < 10 := hL d (List.mem_cons_self d ds)
    simp only [List.map_cons, List.foldl_cons, charVal_digitChar d hd]
    exact ih (fun x hx => hL x (List.mem_cons_of_mem d hx)) _

theorem parse_format (n : Nat) (h : n < 2 ^ 64) : parseUint64 (formatUint n) = some n := by
  match n with
  | 0 => decide
  | n + 1 =>
    have hlt := litDigits_lt_ten (n + 1) (n + 1) (le_refl _)
    have hne := litDigits_ne_nil (n + 1) (Nat.succ_pos n)
    have hdata : (formatUint (n + 1)).data = ((litDigits (n + 1) (n + 1)).map digitChar).reverse := by
      simp [formatUint]
    have hnonnil : (formatUint (n + 1)).data ≠ [] := by
      rw [hdata]
      simp only [ne_eq, List.reverse_eq_nil_iff, List.map_eq_nil_iff]
      exact hne
    have hval : parseVal (formatUint (n + 1)).data = n + 1 := by
      rw [hdata, parseVal, ← List.map_reverse]
      rw [foldl_map_digitChar _ (fun d hd => hlt d (List.mem_reverse.mp hd))]
      have := foldl_digits_reverse (litDigits (n + 1) (n + 1)) 0
      simpa [ofDigitsLE_litDigits (n + 1) (n + 1) (le_refl _)] using this
    have hdig : (formatUint (n + 1)).data.all Char.isDigit = true := by
      rw [hdata, List.all_eq_true]
      intro c hc
      rw [List.mem_reverse, List.mem_map] at hc
      obtain ⟨d, hd, hcd⟩ := hc
      exact hcd ▸ isDigit_digitChar d (hlt d hd)
    rw [parseUint64, if_neg hnonnil, if_pos hdig, hval, if_pos h]

theorem idNum_format (n : Nat) (h : n < 2 ^ 64) : idNum (formatUint n) = n := by
  simp [idNum, parse_format n h]


theorem le_of_mem_range' (n s x : Nat) (h : x ∈ List.range' s n) : s ≤ x := by
  obtain ⟨i, _, rfl⟩ := List.mem_range'.mp h
  omega

theorem pairwise_lt_range'_one : ∀ n s, (List.range' s n).Pairwise (· < ·) := by
  intro n
  induction n with
  | zero => intro s; exact List.Pairwise.nil
  | succ n ih =>
    intro s
    rw [List.range'_succ]
    exact List.Pairwise.cons
      (fun x hx => lt_of_lt_of_le (Nat.lt_succ_self s) (le_of_mem_range' n (s + 1) x hx))
      (ih (s + 1))

theorem publish_ok_elim (b : Bus) (t ty : String) (p : Json) (lastID : String)
    (now : Nat) (id : String) (b' : Bus)
    (h : b.Publish t ty p lastID now = .ok id b') :
    t ≠ "" ∧ b.yieldID = some id ∧
      b' = ⟨b.events ++ [⟨id, now, t, ty, p⟩], deliver b.subs ⟨id, now, t, ty, p⟩⟩ := by
  unfold Bus.Publish Bus.publish at h
  split at h
  · cases h
  · split at h
    · cases h
    · split at h
      · split at h
        · cases h
        · rename_i hy
          injection h with h1 h2
          subst h1 h2
          exact ⟨by assumption, hy, rfl⟩
      · simp at *

theorem yieldID_of_lastVal (b : Bus) (s : Nat) (hs : lastVal b = some s) :
    b.yieldID = some (formatUint ((s + 1) % 2 ^ 64)) := by
  unfold Bus.yieldID
  unfold lastVal at hs
  split at hs
  · injection hs with hs
    subst hs
    rfl
  · rw [hs]

theorem lastVal_append (evs : List Event) (e : Event) (subs : List Subscriber) :
    lastVal ⟨evs ++ [e], subs⟩ = parseUint64 e.id := by
  unfold lastVal
  rw [List.getLast?_concat]

theorem decodeEvent_encodeEvent (e : Event) : decodeEvent (encodeEvent e) = some e := rfl

theorem mapM_decode_encode (evs : List Event) :
    (evs.map encodeEvent).mapM decodeEvent = some evs := by
  induction evs with
  | nil => rfl
  | cons e es ih =>
    rw [List.map_cons, List.mapM_cons, decodeEvent_encodeEvent, ih]
    rfl

theorem load_encoded (b : Bus) (evs : List Event) :
    b.Load (Json.arr (evs.map encodeEvent)) = some ⟨evs, b.subs⟩ := by
  show (match (evs.map encodeEvent).mapM decodeEvent with
        | none => none
        | some evs2 => some (Bus.mk evs2 b.subs)) = some ⟨evs, b.subs⟩
  rw [mapM_decode_encode]

theorem matchesQ_pub (t lastID : String) (ht : t ≠ "") (since : Nat) (e : Event) :
    matchesQ ⟨t, "", 0, 0, lastID, none⟩ since e = true ↔
      (t = AllTopics ∨ e.topic = t) ∧ (since = 0 ∨ since < e.timestamp) := by
  simp [matchesQ, ht]

theorem conflict_filter_iff (b : Bus) (t lastID : String) (ht : t ≠ "") :
    0 < (b.filter ⟨t, "", 0, 0, lastID, none⟩).length ↔ ConflictSpec b t lastID := by
  unfold Bus.filter ConflictSpec
  by_cases h0 : lastID = ""
  · rw [if_pos h0, if_pos h0, List.length_pos, ne_eq, List.filter_eq_nil_iff]
    push_neg
    constructor
    · rintro ⟨e, he, hm⟩
      exact ⟨e, he, ((matchesQ_pub t lastID ht 0 e).mp hm).1⟩
    · rintro ⟨e, he, hm⟩
      exact ⟨e, he, (matchesQ_pub t lastID ht 0 e).mpr ⟨hm, Or.inl rfl⟩⟩
  · rw [if_neg h0, if_neg h0]
    cases hlk : b.lookup lastID with
    | none => simp
    | some e0 =>
      rw [List.length_pos, ne_eq, List.filter_eq_nil_iff]
      push_neg
      constructor
      · rintro ⟨e, he, hm⟩
        have := (matchesQ_pub t lastID ht e0.timestamp e).mp hm
        exact ⟨e, he, this.1, this.2⟩
      · rintro ⟨e, he, hm1, hm2⟩
        exact ⟨e, he, (matchesQ_pub t lastID ht e0.timestamp e).mpr ⟨hm1, hm2⟩⟩

theorem publish_ok_of_no_conflict (b : Bus) (t ty : String) (p : Json)
    (lastID : String) (now : Nat) (id : String) (ht : t ≠ "")
    (hnc : ¬ ConflictSpec b t lastID) (hid : b.yieldID = some id) :
    b.Publish t ty p lastID now =
      .ok id ⟨b.events ++ [⟨id, now, t, ty, p⟩], deliver b.subs ⟨id, now, t, ty, p⟩⟩ := by
  unfold Bus.Publish Bus.publish
  rw [if_neg ht, if_neg (fun h => hnc ((conflict_filter_iff b t lastID ht).mp h.2)),
    if_pos rfl, hid]

theorem subscribeWBS_ok (b : Bus) (topic fromID : String) (bufferSize : Int)
    (ht : topic ≠ "") (hpos : 0 ≤ bufferSize) :
    b.SubscribeWithBufferSize topic fromID bufferSize =
      .ok (⟨b.events, b.subs ++ [⟨topic, bufferSize.toNat, []⟩]⟩,
           b.filter ⟨topic, "", 0, 0, fromID, none⟩) := by
  unfold Bus.SubscribeWithBufferSize
  rw [if_neg ht, if_neg (not_lt.mpr hpos)]

/-- C1: behavior of Publish, amended.  The frozen claim states the conflict
test in terms of ids (fail with Conflict when some event on the topic has an
id greater than lastID); the code instead tests timestamps, captured by
ConflictSpec.  Amended statement: an empty topic fails with NoTopic and
changes nothing; a non-empty topic fails with Conflict and changes nothing
exactly under ConflictSpec; otherwise, when id generation succeeds, the
event is appended with the fresh id, which is returned, and fan-out
happens. -/
theorem publish_behavior (b : Bus) (t ty : String) (p : Json) (lastID : String)
    (now : Nat) :
    (t = "" → b.Publish t ty p lastID now = .errNoTopic b) ∧
    (t ≠ "" → ConflictSpec b t lastID → b.Publish t ty p lastID now = .errConflict b) ∧
    (t ≠ "" → ¬ ConflictSpec b t lastID → ∀ id, b.yieldID = some id →
      b.Publish t ty p lastID now =
        .ok id ⟨b.events ++ [⟨id, now, t, ty, p⟩], deliver b.subs ⟨id, now, t, ty, p⟩⟩) := by
  refine ⟨?_, ?_, ?_⟩
  · intro h
    unfold Bus.Publish Bus.publish
    rw [if_pos h]
  · intro ht hc
    unfold Bus.Publish Bus.publish
    rw [if_neg ht, if_pos ⟨rfl, (conflict_filter_iff b t lastID ht).mpr hc⟩]
  · intro ht hc id hid
    exact publish_ok_of_no_conflict b t ty p lastID now id ht hc hid

/-- C1 counterexample: busC1 (reachable through Load) holds two events on
topic t with equal timestamps and ids 1 and 2.  Publishing on t with
lastID 1 must, per the claim, fail with Conflict because an event with a
greater id (2) exists on the topic; the code instead succeeds and appends,
because no event has a timestamp strictly after the one named by lastID. -/
theorem publish_id_conflict_cex :
    busC1.events.map Event.id = ["1", "2"] ∧
    busC1.events.map Event.topic = ["t", "t"] ∧
    idNum "1" < idNum "2" ∧
    busC1.Publish "t" "y" Json.null "1" 6 = .ok "3" busC1after :=
  ⟨rfl, rfl, by decide, rfl⟩

/-- C1 witness: the amended publish behavior evaluated at a concrete call
on the empty bus. -/
theorem publish_behavior_witness :
    New.Publish "a" "b" Json.null "" 7 =
      .ok "1" ⟨[⟨"1", 7, "a", "b", Json.null⟩], []⟩ :=
  (publish_behavior New "a" "b" Json.null "" 7).2.2 (by decide)
    (by simp [ConflictSpec, New]) "1" rfl

theorem runPublishes_ids (rs : List PubReq) :
    ∀ b ids bf s, lastVal b = some s → s + rs.length < 2 ^ 64 →
      runPublishes b rs = some (ids, bf) →
      ids.map idNum = List.range' (s + 1) rs.length := by
  induction rs with
  | nil =>
    intro b ids bf s hs hw hrun
    simp only [runPublishes, Option.some_inj, Prod.mk.injEq] at hrun
    rw [← hrun.1]
    rfl
  | cons r rs ih =>
    intro b ids bf s hs hw hrun
    unfold runPublishes at hrun
    split at hrun
    case h_2 => cases hrun
    case h_1 id b1 hpub =>
      split at hrun
      case h_2 => cases hrun
      case h_1 ids1 bf1 hrec =>
        simp only [Option.some_inj, Prod.mk.injEq] at hrun
        obtain ⟨hids, hbf⟩ := hrun
        subst hids
        obtain ⟨ht, hyid, hb1⟩ := publish_ok_elim b _ _ _ _ _ _ _ hpub
        have hs1 : s + 1 < 2 ^ 64 := by
          simp only [List.length_cons] at hw
          omega
        have hidv : id = formatUint (s + 1) := by
          rw [yieldID_of_lastVal b s hs] at hyid
          injection hyid with h
          rw [← h, Nat.mod_eq_of_lt hs1]
        have hlast1 : lastVal b1 = some (s + 1) := by
          rw [hb1, lastVal_append]
          show parseUint64 id = some (s + 1)
          rw [hidv]
          exact parse_format (s + 1) hs1
        have hw1 : (s + 1) + rs.length < 2 ^ 64 := by
          simp only [List.length_cons] at hw
          omega
        have htail := ih b1 ids1 bf1 (s + 1) hlast1 hw1 hrec
        rw [List.map_cons, htail, hidv, idNum_format (s + 1) hs1,
          List.length_cons, List.range'_succ]

/-- C2: ids of successful publish sequences, amended.  The frozen claim
says the ids returned by any sequence of successful publishes are strictly
increasing and pairwise distinct; since ids are uint64 values this fails
when the counter wraps at 2 ^ 64 (see the counterexample).  Amended
statement: provided the numeric position s of the log plus the number of
publishes stays below 2 ^ 64, the returned ids are exactly the single
shared sequence s + 1, s + 2, ... across all topics, hence strictly
increasing under the numeric interpretation and pairwise distinct. -/
theorem publish_ids_increasing (b : Bus) (rs : List PubReq) (ids : List String)
    (bf : Bus) (s : Nat) (hs : lastVal b = some s) (hw : s + rs.length < 2 ^ 64)
    (hrun : runPublishes b rs = some (ids, bf)) :
    ids.map idNum = List.range' (s + 1) rs.length ∧
    ids.Pairwise (fun a c => idNum a < idNum c) ∧ ids.Nodup := by
  have hmap := runPublishes_ids rs b ids bf s hs hw hrun
  have hpw : (ids.map idNum).Pairwise (· < ·) := by
    rw [hmap]
    exact pairwise_lt_range'_one _ _
  refine ⟨hmap, List.pairwise_map.mp hpw, ?_⟩
  exact List.Nodup.of_map idNum (List.Pairwise.imp Nat.ne_of_lt hpw)

/-- C2 counterexample: on a bus loaded with a single event whose id is
2 ^ 64 - 2, two successful publishes return the ids 2 ^ 64 - 1 and then 0
(uint64 wraparound in yieldID), so the returned ids of a successful
sequence are not strictly increasing. -/
theorem publish_ids_wrap_cex :
    runPublishes busC2
        [⟨"t", "y", Json.null, "", 2⟩,
         ⟨"t", "y", Json.null, "18446744073709551615", 3⟩] =
      some (["18446744073709551615", "0"], busC2b) ∧
    idNum "0" < idNum "18446744073709551615" :=
  ⟨rfl, by decide⟩

/-- C2 witness: the amended theorem evaluated on two publishes to distinct
topics from the empty bus. -/
theorem publish_ids_increasing_witness :
    (["1", "2"] : List String).map idNum = List.range' 1 2 ∧
    (["1", "2"] : List String).Pairwise (fun a c => idNum a < idNum c) ∧
    (["1", "2"] : List String).Nodup :=
  publish_ids_increasing New
    [⟨"a", "x", Json.null, "", 1⟩, ⟨"b", "x", Json.null, "", 2⟩]
    ["1", "2"]
    ⟨[⟨"1", 1, "a", "x", Json.null⟩, ⟨"2", 2, "b", "x", Json.null⟩], []⟩ 0
    rfl (by decide) rfl

theorem yieldID_getLast_some (b : Bus) (e : Event) (h : b.events.getLast? = some e) :
    b.yieldID =
      match parseUint64 e.id with
      | none => none
      | some v => some (formatUint ((v + 1) % 2 ^ 64)) := by
  unfold Bus.yieldID
  rw [h]

/-- C3: id generator after Load, amended.  The frozen claim says Load
resynchronizes the generator from the maximum id of the loaded sequence so
that the next id collides with no loaded id; the code derives the next id
from the LAST loaded event only (see the counterexample).  Amended
statement: after Load replaces the log with evs, a successful Publish
returns "1" when evs is empty, and otherwise the successor modulo 2 ^ 64 of
the parsed id of the last event of evs. -/
theorem load_resync_from_last (b : Bus) (evs : List Event) (b' b2 : Bus)
    (t ty : String) (p : Json) (lastID : String) (now : Nat) (id : String)
    (hload : b.Load (Json.arr (evs.map encodeEvent)) = some b')
    (hpub : b'.Publish t ty p lastID now = .ok id b2) :
    (evs = [] → id = "1") ∧
    (∀ e, evs.getLast? = some e →
      ∃ v, parseUint64 e.id = some v ∧ id = formatUint ((v + 1) % 2 ^ 64)) := by
  rw [load_encoded] at hload
  injection hload with hload
  subst hload
  obtain ⟨ht, hyid, hb2⟩ := publish_ok_elim _ _ _ _ _ _ _ _ hpub
  constructor
  · rintro rfl
    have h : some "1" = some id := hyid
    injection h with h
    exact h.symm
  · intro e he
    rw [yieldID_getLast_some _ e he] at hyid
    cases hpe : parseUint64 e.id with
    | none => rw [hpe] at hyid; cases hyid
    | some v =>
      rw [hpe] at hyid
      injection hyid with h
      exact ⟨v, rfl, h.symm⟩

/-- C3 counterexample: loading a log whose last id (4) is smaller than its
maximum id (5) leaves the generator at 4, so the next successful Publish
returns "5", colliding with a loaded id — the claim's promised
resynchronization from the maximum does not happen. -/
theorem load_resync_max_cex :
    New.Load (Json.arr [encodeEvent evFive, encodeEvent evFour]) = some busC3 ∧
    busC3.Publish "b" "y" Json.null "" 3 =
      .ok "5" ⟨[evFive, evFour, ⟨"5", 3, "b", "y", Json.null⟩], []⟩ ∧
    "5" ∈ busC3.events.map Event.id :=
  ⟨rfl, rfl, by decide⟩

/-- C3 witness: the amended theorem evaluated after loading one event with
id 7; the next publish returns "8". -/
theorem load_resync_from_last_witness :
    ∃ v, parseUint64 "7" = some v ∧ "8" = formatUint ((v + 1) % 2 ^ 64) :=
  (load_resync_from_last New [⟨"7", 1, "a", "x", Json.null⟩]
      ⟨[⟨"7", 1, "a", "x", Json.null⟩], []⟩
      ⟨[⟨"7", 1, "a", "x", Json.null⟩, ⟨"8", 2, "b", "y", Json.null⟩], []⟩
      "b" "y" Json.null "" 2 "8" rfl rfl).2
    ⟨"7", 1, "a", "x", Json.null⟩ rfl

theorem yieldID_of_IdsParse (b : Bus) (h : IdsParse b) :
    ∃ id w, b.yieldID = some id ∧ parseUint64 id = some w := by
  obtain ⟨v, hv⟩ := h
  refine ⟨formatUint ((v + 1) % 2 ^ 64), (v + 1) % 2 ^ 64,
    yieldID_of_lastVal b v hv, parse_format _ (Nat.mod_lt _ (by norm_num))⟩

/-- C4: publish-time faults, amended.  The frozen claim says Load rejects
unparsable stored ids with a DecodeError and Publish never panics on any
reachable state; the code accepts any string id at load time and yieldID
panics at publish time when the last stored id is unparsable (see the
counterexample).  Amended statement: on every state whose last id parses —
which includes every state reached without Load, since publish preserves
the property — publish never panics, and the property is preserved by
every successful publish. -/
theorem publish_no_panic_when_ids_parse (b : Bus) (t ty : String) (p : Json)
    (lastID : String) (st : Bool) (now : Nat) (h : IdsParse b) :
    b.publish t ty p lastID st now ≠ .panicked ∧
    (∀ id b', b.publish t ty p lastID st now = .ok id b' → IdsParse b') := by
  obtain ⟨gid, w, hgid, hw⟩ := yieldID_of_IdsParse b h
  unfold Bus.publish
  by_cases h1 : t = ""
  · rw [if_pos h1]
    exact ⟨fun hh => PubOutcome.noConfusion hh,
           fun id b' hh => PubOutcome.noConfusion hh⟩
  · rw [if_neg h1]
    by_cases h2 : st = true ∧ 0 < (b.filter ⟨t, "", 0, 0, lastID, none⟩).length
    · rw [if_pos h2]
      exact ⟨fun hh => PubOutcome.noConfusion hh,
             fun id b' hh => PubOutcome.noConfusion hh⟩
    · rw [if_neg h2]
      by_cases h3 : st = true
      · rw [if_pos h3, hgid]
        refine ⟨fun hh => PubOutcome.noConfusion hh, ?_⟩
        intro id b' hh
        injection hh with hid hb'
        subst hb'
        subst hid
        refine ⟨w, ?_⟩
        rw [lastVal_append]
        exact hw
      · rw [if_neg h3]
        refine ⟨fun hh => PubOutcome.noConfusion hh, ?_⟩
        intro id b' hh
        injection hh with hid hb'
        subst hb'
        exact h

/-- C4 counterexample: Load accepts an event whose stored id "abc" is
unparsable (no DecodeError), and a publish on that reachable state, with a
lastID naming the bad event so that no conflict occurs, terminates in the
panic modelled by PubOutcome.panicked. -/
theorem load_unparsable_id_cex :
    New.Load (Json.arr [encodeEvent evBadId]) = some busBad ∧
    parseUint64 "abc" = none ∧
    busBad.Publish "t" "y" Json.null "abc" 2 = .panicked :=
  ⟨rfl, rfl, rfl⟩

/-- C4 witness: the amended no-panic theorem evaluated at a stored publish
on the empty bus. -/
theorem publish_no_panic_witness :
    New.publish "t" "y" Json.null "" true 0 ≠ .panicked :=
  (publish_no_panic_when_ids_parse New "t" "y" Json.null "" true 0 ⟨0, rfl⟩).1

/-- C5: round-trip persistence.  Loading the JSON snapshot written by Dump
reproduces the identical ordered event sequence — same ids, timestamps,
topics, types, and payload structure — and leaves subscribers unchanged. -/
theorem load_dump_roundtrip (b : Bus) : b.Load b.Dump = some b := by
  show b.Load (Json.arr (b.events.map encodeEvent)) = some b
  rw [load_encoded]

/-- C6: subscribe validation, amended.  The frozen claim says a negative
buffer capacity fails with InvalidBuffer; the code checks the empty topic
first, so a call with an empty topic AND a negative capacity fails with
NoTopic (see the counterexample).  Amended statement: an empty topic fails
with NoTopic; with a non-empty topic a negative capacity fails with
InvalidBuffer; otherwise a subscriber with the requested capacity and an
empty queue is registered (capacity zero giving an unbuffered queue on
which every unconsumed send drops); Subscribe uses the default capacity
1024.  Failure returns no state, so no subscriber is registered. -/
theorem subscribe_validation (b : Bus) (topic fromID : String) (bufferSize : Int) :
    (topic = "" → b.SubscribeWithBufferSize topic fromID bufferSize = .error .noTopic) ∧
    (topic ≠ "" → bufferSize < 0 →
      b.SubscribeWithBufferSize topic fromID bufferSize = .error .invalidBuffer) ∧
    (topic ≠ "" → 0 ≤ bufferSize →
      b.SubscribeWithBufferSize topic fromID bufferSize =
        .ok (⟨b.events, b.subs ++ [⟨topic, bufferSize.toNat, []⟩]⟩,
             b.filter ⟨topic, "", 0, 0, fromID, none⟩)) ∧
    b.Subscribe topic fromID = b.SubscribeWithBufferSize topic fromID 1024 ∧
    (∀ s : Subscriber, ∀ e : Event, s.cap = 0 → trySend s e = s) := by
  refine ⟨?_, ?_, ?_, rfl, ?_⟩
  · intro h
    unfold Bus.SubscribeWithBufferSize
    rw [if_pos h]
  · intro ht hneg
    unfold Bus.SubscribeWithBufferSize
    rw [if_neg ht, if_pos hneg]
  · intro ht hpos
    exact subscribeWBS_ok b topic fromID bufferSize ht hpos
  · intro s e h
    unfold trySend
    rw [h]
    simp

/-- C6 counterexample: a subscribe call with an empty topic and a negative
buffer capacity fails with NoTopic, not with the InvalidBuffer the claim
assigns to every negative capacity. -/
theorem subscribe_error_precedence_cex :
    New.SubscribeWithBufferSize "" "" (-1) = .error .noTopic ∧
    SubErr.noTopic ≠ SubErr.invalidBuffer :=
  ⟨rfl, by decide⟩

/-- C6 witness: the amended subscribe validation evaluated at concrete
calls: a negative capacity with a valid topic, a zero capacity, and a drop
on the resulting unbuffered queue. -/
theorem subscribe_validation_witness :
    New.SubscribeWithBufferSize "t" "" (-3) = .error .invalidBuffer ∧
    New.SubscribeWithBufferSize "t" "" 0 = .ok (⟨[], [⟨"t", 0, []⟩]⟩, []) ∧
    trySend ⟨"t", 0, []⟩ evBadId = ⟨"t", 0, []⟩ :=
  ⟨(subscribe_validation New "t" "" (-3)).2.1 (by decide) (by decide),
   (subscribe_validation New "t" "" 0).2.2.1 (by decide) (by decide),
   (subscribe_validation New "t" "" 0).2.2.2.2 ⟨"t", 0, []⟩ evBadId rfl⟩

/-- C9: PublishUnstored is a pure delivery: the stored log is never
changed, the call fails with NoTopic exactly when the topic is empty, and
otherwise the event (with an empty id) is fanned out to matching
subscribers. -/
theorem publishUnstored_frame (b : Bus) (t ty : String) (p : Json) (now : Nat) :
    b.PublishUnstored t ty p now =
      if t = "" then .errNoTopic b
      else .ok "" ⟨b.events, deliver b.subs ⟨"", now, t, ty, p⟩⟩ := by
  unfold Bus.PublishUnstored Bus.publish
  by_cases ht : t = ""
  · rw [if_pos ht, if_pos ht]
  · rw [if_neg ht, if_neg ht, if_neg (by simp), if_neg (by simp)]

/-- C7: per-subscriber delivery order.  For any registered subscriber and
any sequence of successful stored publishes, the events added to its queue
form an order-preserving subsequence (List.Sublist) of the appended events
matching its topic filter — drops only remove events, never reorder them —
and the queue never grows beyond its capacity (so a capacity-1 subscriber
that never consumes holds at most one event, and it is one of the
published events). -/
theorem subscriber_queue_sublist (rs : List PubReq) :
    ∀ (b : Bus) (ids : List String) (bf : Bus) (i : Nat) (s : Subscriber),
      b.subs[i]? = some s →
      runPublishes b rs = some (ids, bf) →
      ∃ (appended : List Event) (s' : Subscriber) (added : List Event),
        bf.events = b.events ++ appended ∧
        bf.subs[i]? = some s' ∧ s'.topic = s.topic ∧ s'.cap = s.cap ∧
        s'.queue = s.queue ++ added ∧
        List.Sublist added (appended.filter (subMatches s.topic)) ∧
        s'.queue.length ≤ max s.queue.length s.cap := by
  induction rs with
  | nil =>
    intro b ids bf i s hs hrun
    simp only [runPublishes, Option.some_inj, Prod.mk.injEq] at hrun
    obtain ⟨h1, h2⟩ := hrun
    subst h2
    exact ⟨[], s, [], by simp, hs, rfl, rfl, by simp, List.nil_sublist _,
      Nat.le_max_left _ _⟩
  | cons r rs ih =>
    intro b ids bf i s hs hrun
    unfold runPublishes at hrun
    split at hrun
    case h_2 => cases hrun
    case h_1 id b1 hpub =>
      split at hrun
      case h_2 => cases hrun
      case h_1 ids1 bf1 hrec =>
        simp only [Option.some_inj, Prod.mk.injEq] at hrun
        obtain ⟨hids, hbf⟩ := hrun
        subst hbf
        obtain ⟨ht, hyid, hb1⟩ := publish_ok_elim b _ _ _ _ _ _ _ hpub
        set e : Event := ⟨id, r.now, r.topic, r.type, r.payload⟩ with he
        have hsubs1 : b1.subs[i]? =
            some (if s.topic ≠ AllTopics ∧ s.topic ≠ e.topic then s else trySend s e) := by
          rw [hb1]
          show (deliver b.subs e)[i]? = _
          simp only [deliver, List.getElem?_map, hs, Option.map_some']
        by_cases hm : s.topic = AllTopics ∨ s.topic = e.topic
        · have hcond : ¬ (s.topic ≠ AllTopics ∧ s.topic ≠ e.topic) := by
            rintro ⟨hA, hB⟩
            rcases hm with h | h
            · exact hA h
            · exact hB h
          rw [if_neg hcond] at hsubs1
          have hmB : subMatches s.topic e = true := by
            unfold subMatches
            rcases hm with h | h
            · simp [h]
            · simp [h]
          unfold trySend at hsubs1
          by_cases hroom : s.queue.length < s.cap
          · rw [if_pos hroom] at hsubs1
            obtain ⟨app1, s', added, hev, hsub', htop, hcap, hq, hsl, hlen⟩ :=
              ih b1 ids1 bf1 i ⟨s.topic, s.cap, s.queue ++ [e]⟩ hsubs1 hrec
            refine ⟨e :: app1, s', e :: added, ?_, hsub', htop, hcap, ?_, ?_, ?_⟩
            · rw [hev, hb1]
              simp
            · rw [hq]
              simp
            · rw [List.filter_cons, if_pos hmB]
              exact List.Sublist.cons₂ e hsl
            · have h1 : (Subscriber.mk s.topic s.cap (s.queue ++ [e])).queue.length =
                  s.queue.length + 1 := by simp
              rw [h1] at hlen
              have h2 : (Subscriber.mk s.topic s.cap (s.queue ++ [e])).cap = s.cap := rfl
              rw [h2] at hlen
              omega
          · rw [if_neg hroom] at hsubs1
            obtain ⟨app1, s', added, hev, hsub', htop, hcap, hq, hsl, hlen⟩ :=
              ih b1 ids1 bf1 i s hsubs1 hrec
            refine ⟨e :: app1, s', added, ?_, hsub', htop, hcap, hq, ?_, hlen⟩
            · rw [hev, hb1]
              simp
            · rw [List.filter_cons, if_pos hmB]
              exact List.Sublist.cons e hsl
        · have hcond : s.topic ≠ AllTopics ∧ s.topic ≠ e.topic := by
            push_neg at hm
            exact hm
          rw [if_pos hcond] at hsubs1
          have hmB : subMatches s.topic e = false := by
            unfold subMatches
            simp only [Bool.or_eq_false_iff, beq_eq_false_iff_ne]
            exact ⟨hcond.1, fun hh => hcond.2 hh.symm⟩
          obtain ⟨app1, s', added, hev, hsub', htop, hcap, hq, hsl, hlen⟩ :=
            ih b1 ids1 bf1 i s hsubs1 hrec
          refine ⟨e :: app1, s', added, ?_, hsub', htop, hcap, hq, ?_, hlen⟩
          · rw [hev, hb1]
            simp
          · rw [List.filter_cons, if_neg (by rw [hmB]; exact Bool.false_ne_true)]
            exact hsl

/-- C7 witness: the sublist theorem evaluated at a capacity-1 subscriber on
topic t and five rapid successful publishes with no consumption: the queue
extension is a subsequence of the five appended events and its length stays
at most 1. -/
theorem subscriber_queue_sublist_witness :
    ∃ (appended : List Event) (s' : Subscriber) (added : List Event),
      busC7f.events = busC7.events ++ appended ∧
      busC7f.subs[0]? = some s' ∧ s'.topic = sub1.topic ∧ s'.cap = sub1.cap ∧
      s'.queue = sub1.queue ++ added ∧
      List.Sublist added (appended.filter (subMatches sub1.topic)) ∧
      s'.queue.length ≤ max sub1.queue.length sub1.cap :=
  subscriber_queue_sublist reqs5 busC7 ["1", "2", "3", "4", "5"] busC7f 0 sub1 rfl rfl

/-- C8: replay versus live ordering.  The claim (and the code's own
Subscribe documentation) require the whole historical replay slice to be
enqueued before the first live event; the code instead spawns the replay
goroutine outside the lock, so its sends interleave with publishes.  This
concrete schedule evaluates the code: with one historical event, a
subscriber with capacity 2 is registered with the replay of h1ev still
pending; a live publish then enqueues live2 first, and the replay step
enqueues h1ev after it, leaving the queue [live2, h1ev] — a live event
delivered before (and interleaved with) a replay item. -/
theorem replay_live_interleaving :
    busC8.SubscribeWithBufferSize "t" "" 2 = .ok (⟨[h1ev], [⟨"t", 2, []⟩]⟩, [h1ev]) ∧
    Bus.Publish ⟨[h1ev], [⟨"t", 2, []⟩]⟩ "t" "y" Json.null "1" 9 = .ok "2" busC8b ∧
    stepReplay busC8b 0 [h1ev] = (busC8c, []) ∧
    busC8c.subs[0]? = some ⟨"t", 2, [live2, h1ev]⟩ :=
  ⟨rfl, rfl, rfl, rfl⟩

theorem publish_panic_of_yieldID_none (b : Bus) (t ty : String) (p : Json)
    (lastID : String) (now : Nat) (ht : t ≠ "") (hnc : ¬ ConflictSpec b t lastID)
    (hy : b.yieldID = none) :
    b.Publish t ty p lastID now = .panicked := by
  unfold Bus.Publish Bus.publish
  rw [if_neg ht, if_neg (fun h => hnc ((conflict_filter_iff b t lastID ht).mp h.2)),
    if_pos rfl, hy]

theorem lookup_eq_none (b : Bus) (aid : String) (h : ∀ e ∈ b.events, e.id ≠ aid) :
    b.lookup aid = none := by
  unfold Bus.lookup
  by_cases h0 : aid = ""
  · rw [if_pos h0]
  · rw [if_neg h0, List.find?_eq_none]
    intro e he
    simpa using h e (List.mem_reverse.mp he)

/-- C10: unknown AfterID yields empty results uniformly, amended.  With a
non-empty AfterID equal to no stored event's id, filter returns the empty
sequence, so ForEachEvent invokes fn on no event, Subscribe replays no
history, and Publish finds no conflicting events.  The frozen claim further
says such a Publish therefore succeeds; that holds only when id generation
does not fault, i.e. when the last stored id parses (see the
counterexample), so the success clause is amended with that premise. -/
theorem unknown_afterID_empty (b : Bus) (aid : String) (hne : aid ≠ "")
    (hun : ∀ e ∈ b.events, e.id ≠ aid) :
    (∀ q : Query, q.afterID = aid → b.filter q = [] ∧ b.ForEachEvent q = []) ∧
    (∀ t : String, ∀ c : Int, t ≠ "" → 0 ≤ c →
      b.SubscribeWithBufferSize t aid c =
        .ok (⟨b.events, b.subs ++ [⟨t, c.toNat, []⟩]⟩, [])) ∧
    (∀ t ty : String, ∀ p : Json, ∀ now : Nat, t ≠ "" →
      (∀ b', b.Publish t ty p aid now ≠ .errConflict b') ∧
      (IdsParse b → ∃ id b2, b.Publish t ty p aid now = .ok id b2)) := by
  have hlk := lookup_eq_none b aid hun
  have hfil : ∀ q : Query, q.afterID = aid → b.filter q = [] := by
    intro q hq
    unfold Bus.filter
    rw [hq, if_neg hne, hlk]
  refine ⟨fun q hq => ⟨hfil q hq, hfil q hq⟩, ?_, ?_⟩
  · intro t c ht hc
    rw [subscribeWBS_ok b t aid c ht hc, hfil _ rfl]
  · intro t ty p now ht
    have hnoc : ¬ ConflictSpec b t aid := by
      rw [← conflict_filter_iff b t aid ht, hfil ⟨t, "", 0, 0, aid, none⟩ rfl]
      simp
    constructor
    · intro b' hh
      cases hgid : b.yieldID with
      | some gid =>
        rw [publish_ok_of_no_conflict b t ty p aid now gid ht hnoc hgid] at hh
        cases hh
      | none =>
        rw [publish_panic_of_yieldID_none b t ty p aid now ht hnoc hgid] at hh
        cases hh
    · intro hip
      obtain ⟨gid, w, hgid, _⟩ := yieldID_of_IdsParse b hip
      exact ⟨gid, _, publish_ok_of_no_conflict b t ty p aid now gid ht hnoc hgid⟩

/-- C10 counterexample: on a state whose only stored id is unparsable
(reachable through Load, see the C4 counterexample), a Publish whose
non-empty lastID zzz matches no stored id indeed finds no conflicting
events, but it panics in yieldID instead of succeeding as the claim
states. -/
theorem unknown_afterID_publish_panic_cex :
    busBad.lookup "zzz" = none ∧
    busBad.Publish "t" "y" Json.null "zzz" 2 = .panicked :=
  ⟨rfl, rfl⟩

/-- C10 witness: the amended theorem evaluated on a one-event bus and the
unknown AfterID zzz: the filtered slice is empty and the publish succeeds. -/
theorem unknown_afterID_empty_witness :
    Bus.filter ⟨[⟨"1", 1, "t", "x", Json.null⟩], []⟩ ⟨"t", "", 0, 0, "zzz", none⟩ = [] ∧
    ∃ id b2, Bus.Publish ⟨[⟨"1", 1, "t", "x", Json.null⟩], []⟩ "t" "y" Json.null "zzz" 2 =
      .ok id b2 :=
  ⟨((unknown_afterID_empty ⟨[⟨"1", 1, "t", "x", Json.null⟩], []⟩ "zzz" (by decide)
        (by decide)).1 ⟨"t", "", 0, 0, "zzz", none⟩ rfl).1,
   ((unknown_afterID_empty ⟨[⟨"1", 1, "t", "x", Json.null⟩], []⟩ "zzz" (by decide)
        (by decide)).2.2 "t" "y" Json.null 2 (by decide)).2 ⟨1, by decide⟩⟩
